import Mathlib

/-!
# S3 adapter of parquet-go-source (`s3v2/s3.go`)

A shallow embedding of `S3File` and its methods `Seek`, `Read`, `Write`,
`Close`, `Open`, `Create`, `openWrite`, `openRead` and `getBytesRange`.

Conventions of the embedding

* `int64` and `int` values are integers (`Int`); every `int64` addition,
  subtraction and negation of the source goes through `wrap64`, which is
  two's complement wrap-around.  Theorems state the `int64` range of their
  inputs as hypotheses (`isInt64`).
* a Go `error` is `Option Error`, `none` being `nil`.
* the S3 transport (`manager.Downloader.Download`, `HeadObject`) and the reader side of the
  `io.Pipe` (the background uploader) are the environment: each call that
  blocks on them takes what the environment does as an argument.
* a nil-pointer dereference is the result `none` of the method.
-/

namespace S3v2

/-! ## Errors -/

/-- Go error values that occur in `s3.go`.  `wrap cause msg` is the value built
by `errors.Wrap(cause, msg)` for a non-nil `cause`. -/
inductive Error where
  | errWhence
  | errInvalidOffset
  | errFailedUpload
  | EOF
  | ErrClosedPipe
  | transport (msg : String)
  | wrap (cause : Error) (msg : String)
  deriving DecidableEq, Repr

/-- The function `errors.Wrap`: nil stays nil, any other error is annotated. -/
def errorsWrap (err : Option Error) (msg : String) : Option Error :=
  match err with
  | none => none
  | some e => some (Error.wrap e msg)

/-- The function `errors.Cause`: the innermost error of a chain of wraps. -/
def Error.cause : Error → Error
  | Error.wrap c _ => Error.cause c
  | e => e

/-! ## Machine integers -/

/-- Two's complement wrap-around of an integer to `int64`. -/
def wrap64 (x : Int) : Int := (x + 2 ^ 63) % 2 ^ 64 - 2 ^ 63

/-- The range of `int64` (and of `int` on 64-bit targets). -/
def isInt64 (x : Int) : Prop := -2 ^ 63 ≤ x ∧ x < 2 ^ 63

instance (x : Int) : Decidable (isInt64 x) := by
  unfold isInt64; infer_instance

/-- Constant `io.SeekStart`. -/
def SeekStart : Int := 0
/-- Constant `io.SeekCurrent`. -/
def SeekCurrent : Int := 1
/-- Constant `io.SeekEnd`. -/
def SeekEnd : Int := 2

/-! ## The pipe between `Write` and the uploader -/

/-- State of an `io.Pipe`: the first error stored by a close of the writer end
(`werr`), the first error stored by a close of the reader end (`rerr`), and the
bytes the reader end, which is the upload body, has received so far. -/
structure Pipe where
  werr : Option Error
  rerr : Option Error
  body : List UInt8
  deriving DecidableEq, Repr

/-- Result of `io.Pipe()`. -/
def Pipe.new : Pipe := { werr := none, rerr := none, body := [] }

/-- The pipe's `done` channel is closed once either end has been closed. -/
def Pipe.done (p : Pipe) : Bool := p.werr.isSome || p.rerr.isSome

/-- Method `PipeWriter.CloseWithError(err)`: a nil `err` is replaced by `io.EOF`,
only the first stored error is kept, and the call returns nil. -/
def Pipe.closeWrite (p : Pipe) (err : Option Error) : Pipe :=
  match p.werr with
  | some _ => p
  | none => { p with werr := some (err.getD Error.EOF) }

/-- Method `PipeReader.CloseWithError(err)`: a nil `err` is replaced by
`io.ErrClosedPipe`, only the first stored error is kept. -/
def Pipe.closeRead (p : Pipe) (err : Option Error) : Pipe :=
  match p.rerr with
  | some _ => p
  | none => { p with rerr := some (err.getD Error.ErrClosedPipe) }

/-- The error a write on a closed pipe reports (`writeCloseError`). -/
def Pipe.writeCloseError (p : Pipe) : Error :=
  match p.werr, p.rerr with
  | none, some r => r
  | _, _ => Error.ErrClosedPipe

/-- What the other side of the pipe does while `PipeWriter.Write` blocks. -/
inductive PipeEvent where
  /-- the upload body reads every byte of the slice -/
  | readAll
  /-- after reading `k` bytes the uploader returns `e`: the error branch of the
  goroutine started by `openWrite` runs -/
  | uploadFails (k : Nat) (e : Error)
  /-- after reading `k` bytes the reader end is closed with `e` -/
  | readerCloses (k : Nat) (e : Option Error)
  deriving DecidableEq, Repr

/-! ## The handle -/

/-- The struct `S3File`, without `ctx`, `client`, `lock` and the uploader
options; `downloader` and `writeDone` record whether the pointer, respectively
the channel, is non-nil; `pipe` is the pair `pipeReader`/`pipeWriter` (nil when
`none`).  `uploadsStarted` is instrumentation: it counts the `go func` launches
of `openWrite` on this handle. -/
structure S3File where
  offset : Int
  whence : Int
  writeOpened : Bool
  writeDone : Bool
  pipe : Option Pipe
  readOpened : Bool
  fileSize : Int
  downloader : Bool
  err : Option Error
  BucketName : String
  Key : String
  uploadsStarted : Nat
  deriving DecidableEq, Repr

/-- Result of `Seek`. -/
structure SeekResult where
  n : Int
  err : Option Error
  file : S3File
  deriving DecidableEq, Repr

/-- The struct `s3.GetObjectInput` as far as `Read` fills it. -/
structure GetObjectInput where
  Bucket : String
  Key : String
  Range : Option String
  deriving DecidableEq, Repr

/-- What `Download` did: the bytes it wrote to the buffer from position 0 on,
and its error. -/
structure DownloadResponse where
  data : List UInt8
  err : Option Error
  deriving DecidableEq, Repr

/-- Result of `Read`: the two return values, the request handed to the
downloader (`none` when no fetch was issued), the caller's buffer and the
handle after the call. -/
structure ReadResult where
  n : Int
  err : Option Error
  request : Option GetObjectInput
  p : List UInt8
  file : S3File
  deriving DecidableEq, Repr

/-- Result of `Write`: the two return values, the argument of the call
`s.pipeWriter.CloseWithError(..)` when the call was made, and the handle after
the call. -/
structure WriteResult where
  n : Int
  err : Option Error
  closeWithError : Option (Option Error)
  file : S3File
  deriving DecidableEq, Repr

/-! ## Formatting -/

/-- The verb `%d` of `fmt.Sprintf` on an integer. -/
def fmtD (i : Int) : String :=
  if i < 0 then "-" ++ Nat.repr i.natAbs else Nat.repr i.natAbs

/-- The format `rangeHeader = "bytes=%d-%d"`. -/
def rangeHeader (a b : Int) : String := "bytes=" ++ fmtD a ++ "-" ++ fmtD b

/-- The format `rangeHeaderSuffix = "bytes=%d"`. -/
def rangeHeaderSuffix (a : Int) : String := "bytes=" ++ fmtD a

/-! ## Seek -/

/-- The `switch whence` of `Seek` for a handle with `fileSize > 0`: the offset
to store, or `none` for `errInvalidOffset`. -/
def seekChecked (s : S3File) (offset whence : Int) : Option Int :=
  if whence = SeekStart then
    if offset < 0 ∨ offset > s.fileSize then none else some offset
  else if whence = SeekCurrent then
    let offset := wrap64 (offset + s.offset)
    if offset < 0 ∨ offset > s.fileSize then none else some offset
  else if whence = SeekEnd then
    if offset > -1 ∨ wrap64 (-offset) > s.fileSize then none else some offset
  else some offset

/-- Method `S3File.Seek`. -/
def Seek (s : S3File) (offset whence : Int) : SeekResult :=
  if whence < SeekStart ∨ whence > SeekEnd then
    { n := 0, err := errorsWrap (some Error.errWhence) "errWhence", file := s }
  else
    let checked := if s.fileSize > 0 then seekChecked s offset whence else some offset
    match checked with
    | none =>
      { n := 0, err := errorsWrap (some Error.errInvalidOffset) "errInvalidOffset", file := s }
    | some offset =>
      { n := offset, err := none, file := { s with offset := offset, whence := whence } }

/-- The result of a `Seek` that fails with `errInvalidOffset`: count 0 and the
handle untouched. -/
def seekInvalidOffset (s : S3File) : SeekResult :=
  { n := 0, err := some (Error.wrap Error.errInvalidOffset "errInvalidOffset"), file := s }

/-- The result of a `Seek` that stores `target` and `whence`. -/
def seekStored (s : S3File) (target whence : Int) : SeekResult :=
  { n := target, err := none, file := { s with offset := target, whence := whence } }

/-! ## Read -/

/-- Method `S3File.getBytesRange`. -/
def getBytesRange (s : S3File) (numBytes : Int) : String :=
  if s.fileSize < 1 then
    if s.whence = SeekStart ∨ s.whence = SeekCurrent then
      rangeHeader s.offset (wrap64 (wrap64 (s.offset + numBytes) - 1))
    else if s.whence = SeekEnd then
      rangeHeaderSuffix s.offset
    else ""
  else
    if s.whence = SeekStart ∨ s.whence = SeekCurrent ∨ s.whence = SeekEnd then
      let begin0 := if s.whence = SeekEnd then wrap64 (s.fileSize + s.offset) else s.offset
      let endIndex := wrap64 (s.fileSize - 1)
      let begin1 := if begin0 < 0 then 0 else begin0
      let end0 := wrap64 (wrap64 (begin1 + numBytes) - 1)
      let end1 := if end0 > endIndex then endIndex else end0
      rangeHeader begin1 end1
    else ""

/-- The request `getObj` that `Read` builds: bucket and key of the handle, and
the range of `getBytesRange` when that string is not empty. -/
def getObjectInput (s : S3File) (numBytes : Int) : GetObjectInput :=
  let getObjRange := getBytesRange s numBytes
  { Bucket := s.BucketName, Key := s.Key,
    Range := if getObjRange.length > 0 then some getObjRange else none }

/-- The buffer of `manager.NewWriteAtBuffer(p)` after `data` was written from
position 0 on: it grows when `data` is longer than `p`. -/
def writeAtBuffer (p data : List UInt8) : List UInt8 :=
  data ++ p.drop data.length

/-- Method `S3File.Read`; `download` is what `s.downloader.Download` does with
the request.  When the download fails the contents of the caller's buffer are
not modelled and `p` is returned as it was. -/
def Read (s : S3File) (p : List UInt8) (download : GetObjectInput → DownloadResponse) :
    Option ReadResult :=
  if s.fileSize > 0 ∧ s.offset ≥ s.fileSize then
    some { n := 0, err := errorsWrap (some Error.EOF) "io.EOF", request := none, p := p,
           file := s }
  else
    let numBytes : Int := p.length
    let getObj := getObjectInput s numBytes
    if s.downloader = false then none
    else
      let resp := download getObj
      let bytesDownloaded : Int := resp.data.length
      match resp.err with
      | some e =>
        some { n := 0, err := errorsWrap (some e) "s.downloader.Download",
               request := some getObj, p := p, file := s }
      | none =>
        let s1 := { s with offset := wrap64 (s.offset + bytesDownloaded) }
        let buf := writeAtBuffer p resp.data
        if (buf.length : Int) > numBytes then
          some { n := p.length, err := none, request := some getObj,
                 p := buf.take p.length, file := s1 }
        else
          some { n := bytesDownloaded, err := none, request := some getObj,
                 p := buf, file := s1 }

/-! ## Write path -/

/-- Method `S3File.openWrite`: a new pipe replaces the pipe fields, the handle
is marked write-opened and the upload goroutine is launched. -/
def openWrite (s : S3File) : S3File :=
  { s with pipe := some Pipe.new, writeOpened := true,
           uploadsStarted := s.uploadsStarted + 1 }

/-- The error branch of the goroutine of `openWrite`, run when
`uploader.Upload` returned `e`: the wrapped error is stored in `s.err` and the
writer end is closed with it. -/
def uploadFailed (s : S3File) (e : Error) : S3File :=
  let err := Error.wrap e "uploader.Upload"
  let s1 := { s with err := some err }
  if s1.writeOpened then
    { s1 with pipe := s1.pipe.map (fun q => q.closeWrite (some err)) }
  else s1

/-- The call `s.pipeWriter.Write(p)` on an open or closed pipe `q` of handle `s`:
the handle after the call (the uploader may have stored its error meanwhile),
the pipe after the call, the byte count and the error.  A write on a closed
pipe fails at once; a write of a non-empty slice whose bytes were all read
returns before any later close is seen. -/
def pipeWrite (s : S3File) (q : Pipe) (p : List UInt8) (ev : PipeEvent) :
    S3File × Pipe × Int × Option Error :=
  if q.done then (s, q, 0, some q.writeCloseError)
  else
    match ev with
    | PipeEvent.readAll =>
      (s, { q with body := q.body ++ p }, p.length, none)
    | PipeEvent.uploadFails k e =>
      if 0 < p.length ∧ p.length ≤ k then
        (s, { q with body := q.body ++ p }, p.length, none)
      else
      let q1 := { q with body := q.body ++ p.take k }
      let s1 := uploadFailed { s with pipe := some q1 } e
      let q2 := s1.pipe.getD q1
      (s1, q2, (p.take k).length, some q2.writeCloseError)
    | PipeEvent.readerCloses k e =>
      if 0 < p.length ∧ p.length ≤ k then
        (s, { q with body := q.body ++ p }, p.length, none)
      else
      let q1 := { q with body := q.body ++ p.take k }
      let q2 := q1.closeRead e
      (s, q2, (p.take k).length, some q2.writeCloseError)

/-- Method `S3File.Write`; `ev` is what the reader side of the pipe does while
the forward blocks.  The argument of `CloseWithError` is the named result
`err`, which is nil at that point of the source. -/
def Write (s : S3File) (p : List UInt8) (ev : PipeEvent) : Option WriteResult :=
  let s0 := if s.writeOpened then s else openWrite s
  match s0.err with
  | some writeError =>
    some { n := 0, err := errorsWrap (some writeError) "writeError", closeWithError := none,
           file := s0 }
  | none =>
    match s0.pipe with
    | none => none
    | some q =>
      match pipeWrite s0 q p ev with
      | (s1, q1, bytesWritten, writeError) =>
        match writeError with
        | some e =>
          let writeError := Error.wrap e "s.pipeWriter.Write"
          let err : Option Error := none
          some { n := 0, err := some writeError, closeWithError := some err,
                 file := { s1 with err := some writeError, pipe := some (q1.closeWrite err) } }
        | none =>
          some { n := bytesWritten, err := none, closeWithError := none,
                 file := { s1 with pipe := some q1 } }

/-- Method `S3File.Close`; `done` is the value received from `s.writeDone`.
`PipeWriter.Close` is `CloseWithError(nil)` and returns nil. -/
def Close (s : S3File) (done : Option Error) : Option Error × S3File :=
  let s1 := { s with pipe := s.pipe.map (fun q => q.closeWrite none) }
  let closeErr : Option Error := none
  match closeErr with
  | some e => (errorsWrap (some e) "s.pipeWriter.Close", s1)
  | none =>
    let err := if s.writeDone then done else none
    match err with
    | some e => (errorsWrap (some e) "<-s.writeDone", s1)
    | none => (none, s1)

/-- Method `S3File.Create`: a fresh handle with the parent's bucket and the
given key, with its write session opened. -/
def Create (s : S3File) (key : String) : S3File :=
  openWrite
    { offset := 0, whence := 0, writeOpened := false, writeDone := true, pipe := none,
      readOpened := false, fileSize := 0, downloader := false, err := none,
      BucketName := s.BucketName, Key := key, uploadsStarted := 0 }

/-- The bytes the upload body has received on a handle. -/
def uploadBody (s : S3File) : List UInt8 :=
  match s.pipe with
  | some q => q.body
  | none => []

/-- Successive `Write` calls with a reader that consumes everything: the
handle after the calls and the list of results, `none` on a nil dereference. -/
def writeAll (s : S3File) : List (List UInt8) → Option (S3File × List (Int × Option Error))
  | [] => some (s, [])
  | b :: bs =>
    match Write s b PipeEvent.readAll with
    | none => none
    | some r =>
      match writeAll r.file bs with
      | none => none
      | some (t, rs) => some (t, (r.n, r.err) :: rs)

/-! ## Calls as a transition system -/

/-- One call on a handle, or the failure of the background upload. -/
inductive Op where
  | seek (offset whence : Int)
  | read (p : List UInt8) (download : GetObjectInput → DownloadResponse)
  | write (p : List UInt8) (ev : PipeEvent)
  | close (done : Option Error)
  | uploadFailure (e : Error)

/-- Whether the step is a method call of the caller. -/
def Op.isCall : Op → Bool
  | Op.uploadFailure _ => false
  | _ => true

/-- The handle after one step; a call that dereferences nil leaves no handle. -/
def step (s : S3File) : Op → Option S3File
  | Op.seek offset whence => some (Seek s offset whence).file
  | Op.read p download => (Read s p download).map (fun r => r.file)
  | Op.write p ev => (Write s p ev).map (fun r => r.file)
  | Op.close done => some (Close s done).2
  | Op.uploadFailure e => some (uploadFailed s e)

/-- The handle after a sequence of steps. -/
def run (s : S3File) : List Op → Option S3File
  | [] => some s
  | o :: os =>
    match step s o with
    | none => none
    | some t => run t os

/-! ## Open -/

/-- The struct `s3.HeadObjectInput` as `openRead` fills it. -/
structure HeadObjectInput where
  Bucket : String
  Key : String
  deriving DecidableEq, Repr

/-- What `s.client.HeadObject` answers: the `ContentLength` of the output, or
an error. -/
inductive HeadResponse where
  | ok (ContentLength : Int)
  | fail (e : Error)
  deriving DecidableEq, Repr

/-- Result of `Open`: the returned handle (`none` is nil), the error, the
receiver after the call and the `HeadObject` calls made during the call. -/
structure OpenResult where
  pf : Option S3File
  err : Option Error
  parent : S3File
  headCalls : List HeadObjectInput
  deriving DecidableEq, Repr

/-- Method `S3File.openRead`; `head` is what `s.client.HeadObject` answers. -/
def openRead (s : S3File) (head : HeadObjectInput → HeadResponse) : Option Error × S3File :=
  let hoi : HeadObjectInput := { Bucket := s.BucketName, Key := s.Key }
  match head hoi with
  | HeadResponse.fail e => (errorsWrap (some e) "s.client.HeadObject", s)
  | HeadResponse.ok ContentLength =>
    (none, { s with readOpened := true,
                    fileSize := if ContentLength ≠ 0 then ContentLength else s.fileSize })

/-- The handle `pf` that `Open` builds from the receiver and the name: the
fields not listed in the struct literal of the source have their zero value. -/
def openInstance (s : S3File) (name : String) : S3File :=
  let name := if name.length = 0 then s.Key else name
  { offset := 0, whence := 0, writeOpened := false, writeDone := false, pipe := none,
    readOpened := s.readOpened, fileSize := s.fileSize, downloader := s.downloader,
    err := none, BucketName := s.BucketName, Key := name, uploadsStarted := 0 }

/-- Method `S3File.Open`. -/
def Open (s : S3File) (name : String) (head : HeadObjectInput → HeadResponse) : OpenResult :=
  if s.readOpened = false then
    match openRead s head with
    | (some e, s1) =>
      { pf := none, err := errorsWrap (some e) "s.openRead", parent := s1,
        headCalls := [{ Bucket := s.BucketName, Key := s.Key }] }
    | (none, s1) =>
      { pf := some (openInstance s1 name), err := none, parent := s1,
        headCalls := [{ Bucket := s.BucketName, Key := s.Key }] }
  else
    { pf := some (openInstance s name), err := none, parent := s, headCalls := [] }

/-- Function `NewS3FileReaderWithClient`: the handle `file` of the source, and
what `file.Open(key)` returns, the error annotated. -/
def NewS3FileReaderWithClient (bucket key : String) (head : HeadObjectInput → HeadResponse) :
    Option S3File × Option Error :=
  let file : S3File :=
    { offset := 0, whence := 0, writeOpened := false, writeDone := false, pipe := none,
      readOpened := false, fileSize := 0, downloader := true, err := none,
      BucketName := bucket, Key := key, uploadsStarted := 0 }
  let r := Open file key head
  match r.err with
  | some e => (r.pf, errorsWrap (some e) "file.Open")
  | none => (r.pf, none)

/-! ## Concrete handles and transports -/

/-- A probed read handle on an object of `size` bytes, cursor 0, anchor Start. -/
def readerOfSize (size : Int) : S3File :=
  { offset := 0, whence := SeekStart, writeOpened := false, writeDone := false, pipe := none,
    readOpened := true, fileSize := size, downloader := true, err := none,
    BucketName := "bucket", Key := "key", uploadsStarted := 0 }

/-- A transport that answers every request with `data` and no error. -/
def deliver (data : List UInt8) : GetObjectInput → DownloadResponse :=
  fun _ => { data := data, err := none }

/-- A transport that answers every request with the error `msg` and no data. -/
def refuse (msg : String) : GetObjectInput → DownloadResponse :=
  fun _ => { data := [], err := some (Error.transport msg) }

/-- The count, the error, the request and the cursor of a `Read` result. -/
def ReadResult.summary (r : ReadResult) : Int × Option Error × Option GetObjectInput × Int :=
  (r.n, r.err, r.request, r.file.offset)

/-- A write handle as `Create` returns it, for the key `out`. -/
def exampleWriter : S3File := Create (readerOfSize 0) "out"

/-- The handle `exampleWriter` after `Close` received nil from the uploader. -/
def closedWriter : S3File := (Close exampleWriter none).2

/-- The handle `closedWriter` after a `Write` of one byte, which fails because
the pipe is closed. -/
def poisonedWriter : S3File :=
  match Write closedWriter [1] PipeEvent.readAll with
  | some r => r.file
  | none => closedWriter

/-- A read handle before its probe, as `NewS3FileReaderWithClient` builds it. -/
def unprobedReader : S3File :=
  { offset := 0, whence := 0, writeOpened := false, writeDone := false, pipe := none,
    readOpened := false, fileSize := 0, downloader := true, err := none,
    BucketName := "bucket", Key := "key", uploadsStarted := 0 }

/-- A `HeadObject` that fails with the error `msg` on every request. -/
def headFails (msg : String) : HeadObjectInput → HeadResponse :=
  fun _ => HeadResponse.fail (Error.transport msg)

/-- A `HeadObject` that reports the content length `size` on every request. -/
def headReports (size : Int) : HeadObjectInput → HeadResponse :=
  fun _ => HeadResponse.ok size

/-- A probed read handle on an object of 1000 bytes that was moved to cursor
-100 with anchor End. -/
def movedReader : S3File := (Seek (readerOfSize 1000) (-100) SeekEnd).file

end S3v2

/-! # Properties -/

namespace S3v2

/-! ## Auxiliary facts -/

theorem wrap64_eq_self (x : Int) (h1 : -2 ^ 63 ≤ x) (h2 : x < 2 ^ 63) : wrap64 x = x := by
  unfold wrap64; omega

theorem rangeHeader_length_pos (a b : Int) : 0 < (rangeHeader a b).length := by
  unfold rangeHeader
  simp only [String.length_append]
  have h : "bytes=".length = 6 := by decide
  omega

theorem rangeHeaderSuffix_length_pos (a : Int) : 0 < (rangeHeaderSuffix a).length := by
  unfold rangeHeaderSuffix
  simp only [String.length_append]
  have h : "bytes=".length = 6 := by decide
  omega

/-- On a handle of known size whose anchor is Start, the range runs from the
cursor to the last requested byte, cut at the last byte of the object. -/
theorem getBytesRange_known_start (s : S3File) (n : Int)
    (hS1 : 1 ≤ s.fileSize) (hS2 : s.fileSize < 2 ^ 63) (hw : s.whence = SeekStart)
    (hx0 : 0 ≤ s.offset) (hn : 0 ≤ n) (hov : s.offset + n - 1 < 2 ^ 63) :
    getBytesRange s n = rangeHeader s.offset (min (s.offset + n - 1) (s.fileSize - 1)) := by
  have e1 : wrap64 (s.fileSize - 1) = s.fileSize - 1 := wrap64_eq_self _ (by omega) (by omega)
  have e2 : wrap64 (wrap64 (s.offset + n) - 1) = s.offset + n - 1 := by
    unfold wrap64; omega
  unfold getBytesRange
  rw [if_neg (by omega), if_pos (Or.inl hw)]
  have hne : ¬ s.whence = SeekEnd := by rw [hw]; decide
  simp only [hne, if_false, e1]
  rw [if_neg (by omega), e2]
  congr 1
  rcases le_total (s.offset + n - 1) (s.fileSize - 1) with h | h
  · rw [min_eq_left h, if_neg (by omega)]
  · rcases eq_or_lt_of_le h with h3 | h3
    · rw [min_eq_right h, if_neg (by omega), h3]
    · rw [min_eq_right h, if_pos (by omega)]

/-- A Start-relative seek inside `[0, fileSize]` on a handle of known size. -/
theorem seek_start_inside (s : S3File) (x : Int) (hS : 0 < s.fileSize)
    (hx0 : 0 ≤ x) (hx1 : x ≤ s.fileSize) :
    Seek s x SeekStart
      = { n := x, err := none, file := { s with offset := x, whence := SeekStart } } := by
  unfold Seek
  rw [if_neg (by decide), if_pos hS]
  unfold seekChecked
  rw [if_pos rfl, if_neg (by omega)]

/-- A `Read` that is not at the end of a known-size object, on a handle with a
downloader, whose fetch succeeds with `data`: the request carries the range of
`getBytesRange`, the cursor advances by the length of `data`, and the count is
cut to the length of the buffer when the download buffer grew. -/
theorem read_fetch (s : S3File) (p : List UInt8) (download : GetObjectInput → DownloadResponse)
    (range : String) (data : List UInt8)
    (hne : ¬ (s.fileSize > 0 ∧ s.offset ≥ s.fileSize)) (hd : s.downloader = true)
    (hr : getBytesRange s p.length = range) (hpos : 0 < range.length)
    (hresp : download { Bucket := s.BucketName, Key := s.Key, Range := some range }
      = { data := data, err := none }) :
    Read s p download =
      if ((writeAtBuffer p data).length : Int) > (p.length : Int) then
        some { n := p.length, err := none,
               request := some { Bucket := s.BucketName, Key := s.Key, Range := some range },
               p := (writeAtBuffer p data).take p.length,
               file := { s with offset := wrap64 (s.offset + data.length) } }
      else
        some { n := data.length, err := none,
               request := some { Bucket := s.BucketName, Key := s.Key, Range := some range },
               p := writeAtBuffer p data,
               file := { s with offset := wrap64 (s.offset + data.length) } } := by
  unfold Read getObjectInput
  rw [if_neg hne]
  simp only [hr, hpos, gt_iff_lt, if_true, hd, Bool.true_eq_false, if_false, hresp]

/-! ## C1 -/

/-- C1: on a read handle of known size `S ≥ 1`, for `0 ≤ x < S` and a buffer of
length `n ≥ 1` (with `x + n - 1` representable in `int64`), `Seek(x, SeekStart)`
succeeds and the following `Read` requests the range `[x, min(x+n-1, S-1)]`;
when the transport delivers exactly the bytes of that range of the object,
`Read` returns `min(n, S-x)` with nil error, the cursor becomes
`x + min(n, S-x)`, and the buffer starts with the delivered bytes. -/
theorem C1_seek_start_then_read (s : S3File) (S x : Int) (p obj : List UInt8)
    (download : GetObjectInput → DownloadResponse)
    (hS : s.fileSize = S) (hS1 : 1 ≤ S) (hS2 : S < 2 ^ 63)
    (hx0 : 0 ≤ x) (hx1 : x < S) (hn : 1 ≤ p.length)
    (hov : x + (p.length : Int) - 1 < 2 ^ 63)
    (hd : s.downloader = true) (hobj : (obj.length : Int) = S)
    (hresp : download { Bucket := s.BucketName, Key := s.Key,
                        Range := some (rangeHeader x (min (x + (p.length : Int) - 1) (S - 1))) }
      = { data := (obj.drop x.toNat).take (min (p.length : Int) (S - x)).toNat, err := none }) :
    (Seek s x SeekStart).err = none ∧ (Seek s x SeekStart).n = x ∧
    ∃ r, Read (Seek s x SeekStart).file p download = some r ∧
      r.request = some { Bucket := s.BucketName, Key := s.Key,
                         Range := some (rangeHeader x (min (x + (p.length : Int) - 1) (S - 1))) } ∧
      r.n = min (p.length : Int) (S - x) ∧ r.err = none ∧
      r.file.offset = x + min (p.length : Int) (S - x) ∧
      r.file.whence = SeekStart ∧
      r.p.take r.n.toNat = (obj.drop x.toNat).take (min (p.length : Int) (S - x)).toNat := by
  subst hS
  rw [seek_start_inside s x (by omega) hx0 (by omega)]
  refine ⟨rfl, rfl, ?_⟩
  have hr := getBytesRange_known_start { s with offset := x, whence := SeekStart } p.length
    hS1 hS2 rfl hx0 (by omega) hov
  simp only at hr
  -- length of the delivered data
  have hlen : (((obj.drop x.toNat).take (min (p.length : Int) (s.fileSize - x)).toNat).length : Int)
      = min (p.length : Int) (s.fileSize - x) := by
    rw [List.length_take, List.length_drop]
    have h1 : 0 ≤ min (p.length : Int) (s.fileSize - x) := by
      apply le_min <;> omega
    have h2 : min (p.length : Int) (s.fileSize - x) ≤ s.fileSize - x := min_le_right _ _
    omega
  have hm : min (p.length : Int) (s.fileSize - x) ≤ p.length := min_le_left _ _
  have hbuf : ¬ ((writeAtBuffer p
      ((obj.drop x.toNat).take (min (p.length : Int) (s.fileSize - x)).toNat)).length : Int)
        > (p.length : Int) := by
    unfold writeAtBuffer
    rw [List.length_append, List.length_drop]
    omega
  rw [read_fetch { s with offset := x, whence := SeekStart } p download _ _
    (by simp only [not_and, not_le]; intro _; exact hx1) hd hr (rangeHeader_length_pos _ _) hresp,
    if_neg hbuf]
  refine ⟨_, rfl, rfl, hlen, rfl, ?_, rfl, ?_⟩
  · show wrap64 (x + _) = _
    rw [hlen]
    have h1 : 0 ≤ min (p.length : Int) (s.fileSize - x) := by
      apply le_min <;> omega
    have h2 : min (p.length : Int) (s.fileSize - x) ≤ s.fileSize - x := min_le_right _ _
    exact wrap64_eq_self _ (by omega) (by omega)
  · show (writeAtBuffer p _).take _ = _
    rw [hlen]
    unfold writeAtBuffer
    have h3 : (min (p.length : Int) (s.fileSize - x)).toNat
        = ((obj.drop x.toNat).take (min (p.length : Int) (s.fileSize - x)).toNat).length := by
      omega
    exact List.take_left' h3.symm

set_option maxRecDepth 100000 in
/-- C1 at `S = 1000`, `x = 900`, `n = 150`: the request is `bytes=900-999`, the
call returns 100 and leaves the cursor at 1000. -/
theorem C1_seek_start_then_read_witness :
    (Seek (readerOfSize 1000) 900 SeekStart).err = none ∧
    ∃ r, Read (Seek (readerOfSize 1000) 900 SeekStart).file (List.replicate 150 0)
          (deliver (List.replicate 100 7)) = some r ∧
      r.request = some { Bucket := "bucket", Key := "key", Range := some "bytes=900-999" } ∧
      r.n = 100 ∧ r.err = none ∧ r.file.offset = 1000 := by
  have h := C1_seek_start_then_read (readerOfSize 1000) 1000 900 (List.replicate 150 0)
    (List.replicate 1000 7) (deliver (List.replicate 100 7)) rfl (by decide) (by decide)
    (by decide) (by decide) (by decide) (by decide) rfl (by decide) rfl
  obtain ⟨h1, _, r, h2, h3, h4, h5, h6, _⟩ := h
  refine ⟨h1, r, h2, ?_, ?_, h5, ?_⟩
  · rw [h3]; simp [readerOfSize]; decide
  · rw [h4]; simp
  · rw [h6]; simp

/-! ## C2 -/

/-- C2: on a handle of known size `S`, `Seek(offset, SeekStart)` succeeds exactly
when `0 ≤ offset ≤ S`, and `Seek(offset, SeekCurrent)` succeeds exactly when the
target `offset + cursor` (an `int64` sum) lies in `[0, S]`; on success the
cursor and the returned value are the target and the anchor is the whence
used, otherwise the call fails with the invalid-offset error and changes
nothing.  For `int64` operands whose integer sum is not below the least
`int64`, the same holds with the integer sum as target. -/
theorem C2_seek_start_current (s : S3File) (offset : Int) (hS : 0 < s.fileSize) :
    ((Seek s offset SeekStart).err = none ↔ (0 ≤ offset ∧ offset ≤ s.fileSize)) ∧
    ((0 ≤ offset ∧ offset ≤ s.fileSize) →
      Seek s offset SeekStart = seekStored s offset SeekStart) ∧
    (¬ (0 ≤ offset ∧ offset ≤ s.fileSize) →
      Seek s offset SeekStart = seekInvalidOffset s) ∧
    ((Seek s offset SeekCurrent).err = none ↔
      (0 ≤ wrap64 (offset + s.offset) ∧ wrap64 (offset + s.offset) ≤ s.fileSize)) ∧
    ((0 ≤ wrap64 (offset + s.offset) ∧ wrap64 (offset + s.offset) ≤ s.fileSize) →
      Seek s offset SeekCurrent = seekStored s (wrap64 (offset + s.offset)) SeekCurrent) ∧
    (¬ (0 ≤ wrap64 (offset + s.offset) ∧ wrap64 (offset + s.offset) ≤ s.fileSize) →
      Seek s offset SeekCurrent = seekInvalidOffset s) ∧
    (isInt64 offset → isInt64 s.offset → s.fileSize < 2 ^ 63 →
      -2 ^ 63 ≤ offset + s.offset →
      ((Seek s offset SeekCurrent).err = none ↔
        (0 ≤ offset + s.offset ∧ offset + s.offset ≤ s.fileSize)) ∧
      ((0 ≤ offset + s.offset ∧ offset + s.offset ≤ s.fileSize) →
        Seek s offset SeekCurrent = seekStored s (offset + s.offset) SeekCurrent)) := by
  have hstart : ∀ o : Int, Seek s o SeekStart
      = if 0 ≤ o ∧ o ≤ s.fileSize then seekStored s o SeekStart else seekInvalidOffset s := by
    intro o
    unfold Seek seekChecked
    rw [if_neg (by decide), if_pos hS, if_pos rfl]
    by_cases h : 0 ≤ o ∧ o ≤ s.fileSize
    · rw [if_neg (by omega), if_pos h]; rfl
    · rw [if_pos (by omega), if_neg h]; rfl
  have hcur : ∀ o : Int, Seek s o SeekCurrent
      = if 0 ≤ wrap64 (o + s.offset) ∧ wrap64 (o + s.offset) ≤ s.fileSize
        then seekStored s (wrap64 (o + s.offset)) SeekCurrent else seekInvalidOffset s := by
    intro o
    unfold Seek seekChecked
    rw [if_neg (by decide), if_pos hS, if_neg (by decide), if_pos rfl]
    by_cases h : 0 ≤ wrap64 (o + s.offset) ∧ wrap64 (o + s.offset) ≤ s.fileSize
    · simp only [if_pos h]; rw [if_neg (by omega)]; rfl
    · simp only [if_neg h]; rw [if_pos (by omega)]; rfl
  have hA : (Seek s offset SeekCurrent).err = none ↔
      (0 ≤ wrap64 (offset + s.offset) ∧ wrap64 (offset + s.offset) ≤ s.fileSize) := by
    rw [hcur]
    by_cases h : 0 ≤ wrap64 (offset + s.offset) ∧ wrap64 (offset + s.offset) ≤ s.fileSize
    · simp [h, seekStored]
    · simp [h, seekInvalidOffset]
  have hB : (0 ≤ wrap64 (offset + s.offset) ∧ wrap64 (offset + s.offset) ≤ s.fileSize) →
      Seek s offset SeekCurrent = seekStored s (wrap64 (offset + s.offset)) SeekCurrent := by
    intro h; rw [hcur, if_pos h]
  refine ⟨?_, ?_, ?_, hA, hB, ?_, ?_⟩
  · rw [hstart]
    by_cases h : 0 ≤ offset ∧ offset ≤ s.fileSize
    · simp [h, seekStored]
    · simp [h, seekInvalidOffset]
  · intro h; rw [hstart, if_pos h]
  · intro h; rw [hstart, if_neg h]
  · intro h; rw [hcur, if_neg h]
  · intro h1 h2 h3 h4
    unfold isInt64 at h1 h2
    have hiff : (0 ≤ wrap64 (offset + s.offset) ∧ wrap64 (offset + s.offset) ≤ s.fileSize)
        ↔ (0 ≤ offset + s.offset ∧ offset + s.offset ≤ s.fileSize) := by
      have hw : wrap64 (offset + s.offset) = (offset + s.offset + 2 ^ 63) % 2 ^ 64 - 2 ^ 63 := rfl
      rw [hw]
      clear hA hB hstart hcur hw
      omega
    refine ⟨hA.trans hiff, ?_⟩
    intro h
    have e : wrap64 (offset + s.offset) = offset + s.offset :=
      wrap64_eq_self _ (by omega) (by omega)
    rw [← e]
    exact hB (hiff.mpr h)

/-- C2 on an object of 1000 bytes: `Seek(-1, SeekStart)` and
`Seek(1001, SeekStart)` fail, `Seek(1000, SeekStart)` succeeds, and from
cursor 0 `Seek(-1, SeekCurrent)` fails. -/
theorem C2_seek_start_current_witness :
    0 < (readerOfSize 1000).fileSize ∧
    Seek (readerOfSize 1000) (-1) SeekStart = seekInvalidOffset (readerOfSize 1000) ∧
    Seek (readerOfSize 1000) 1001 SeekStart = seekInvalidOffset (readerOfSize 1000) ∧
    Seek (readerOfSize 1000) 1000 SeekStart = seekStored (readerOfSize 1000) 1000 SeekStart ∧
    Seek (readerOfSize 1000) (-1) SeekCurrent = seekInvalidOffset (readerOfSize 1000) :=
  ⟨by decide,
   (C2_seek_start_current (readerOfSize 1000) (-1) (by decide)).2.2.1 (by decide),
   (C2_seek_start_current (readerOfSize 1000) 1001 (by decide)).2.2.1 (by decide),
   (C2_seek_start_current (readerOfSize 1000) 1000 (by decide)).2.1 (by decide),
   (C2_seek_start_current (readerOfSize 1000) (-1) (by decide)).2.2.2.2.2.1 (by decide)⟩

/-! ## C3 -/

/-- C3 fails as stated: on an object of 1000 bytes the offset 0 satisfies
`offset ≤ 0` and `|offset| ≤ S`, yet `Seek(0, SeekEnd)` is rejected with the
invalid-offset error. -/
theorem C3_seek_end_zero_rejected :
    ((0 : Int) ≤ 0 ∧ ((0 : Int).natAbs : Int) ≤ (readerOfSize 1000).fileSize) ∧
    Seek (readerOfSize 1000) 0 SeekEnd = seekInvalidOffset (readerOfSize 1000) ∧
    (Seek (readerOfSize 1000) 0 SeekEnd).err ≠ none := by
  decide

/-- C3, amended: on a handle of known size `S`, for every `int64` offset other
than the least one, `Seek(offset, SeekEnd)` succeeds exactly when
`offset ≤ -1` and `|offset| ≤ S`; it then stores and returns `offset` and
stores the anchor End; otherwise it fails with the invalid-offset error and
changes nothing.  In particular `Seek(-S, SeekEnd)` succeeds and
`Seek(0, SeekEnd)` fails. -/
theorem C3_seek_end_amended (s : S3File) (offset : Int) (hS : 0 < s.fileSize)
    (ho1 : -2 ^ 63 < offset) (ho2 : offset < 2 ^ 63) :
    ((Seek s offset SeekEnd).err = none ↔
      (offset ≤ -1 ∧ (offset.natAbs : Int) ≤ s.fileSize)) ∧
    ((offset ≤ -1 ∧ (offset.natAbs : Int) ≤ s.fileSize) →
      Seek s offset SeekEnd = seekStored s offset SeekEnd) ∧
    (¬ (offset ≤ -1 ∧ (offset.natAbs : Int) ≤ s.fileSize) →
      Seek s offset SeekEnd = seekInvalidOffset s) ∧
    Seek s (-s.fileSize) SeekEnd = seekStored s (-s.fileSize) SeekEnd ∧
    Seek s 0 SeekEnd = seekInvalidOffset s := by
  have hend : ∀ o : Int, Seek s o SeekEnd
      = if o > -1 ∨ wrap64 (-o) > s.fileSize then seekInvalidOffset s
        else seekStored s o SeekEnd := by
    intro o
    unfold Seek seekChecked
    rw [if_neg (by decide), if_pos hS, if_neg (by decide), if_neg (by decide), if_pos rfl]
    by_cases h : o > -1 ∨ wrap64 (-o) > s.fileSize
    · rw [if_pos h, if_pos h]; rfl
    · rw [if_neg h, if_neg h]; rfl
  have hw : wrap64 (-offset) = -offset := wrap64_eq_self _ (by omega) (by omega)
  have hcond : (offset > -1 ∨ wrap64 (-offset) > s.fileSize)
      ↔ ¬ (offset ≤ -1 ∧ (offset.natAbs : Int) ≤ s.fileSize) := by
    rw [hw]; omega
  refine ⟨?_, ?_, ?_, ?_, ?_⟩
  · rw [hend]
    by_cases h : offset > -1 ∨ wrap64 (-offset) > s.fileSize
    · rw [if_pos h]
      exact ⟨fun e => by simp [seekInvalidOffset] at e, fun h3 => absurd h3 (hcond.mp h)⟩
    · have h2 : offset ≤ -1 ∧ (offset.natAbs : Int) ≤ s.fileSize := by
        by_contra h3; exact h (hcond.mpr h3)
      rw [if_neg h]
      exact ⟨fun _ => h2, fun _ => rfl⟩
  · intro h
    rw [hend, if_neg (fun h3 => hcond.mp h3 h)]
  · intro h
    rw [hend, if_pos (hcond.mpr h)]
  · rw [hend]
    by_cases hbig : s.fileSize < 2 ^ 63
    · have e : wrap64 (- -s.fileSize) = s.fileSize := by
        rw [neg_neg]; exact wrap64_eq_self _ (by omega) hbig
      rw [if_neg (by rw [e]; omega)]
    · have e : wrap64 (- -s.fileSize) ≤ s.fileSize := by
        rw [neg_neg]; unfold wrap64; omega
      rw [if_neg (by omega)]
  · rw [hend, if_pos (Or.inl (by decide))]

/-- C3 amended, on an object of 1000 bytes: `Seek(-1000, SeekEnd)` succeeds and
`Seek(-1001, SeekEnd)` fails. -/
theorem C3_seek_end_amended_witness :
    0 < (readerOfSize 1000).fileSize ∧
    Seek (readerOfSize 1000) (-1000) SeekEnd = seekStored (readerOfSize 1000) (-1000) SeekEnd ∧
    Seek (readerOfSize 1000) (-1001) SeekEnd = seekInvalidOffset (readerOfSize 1000) :=
  ⟨by decide,
   (C3_seek_end_amended (readerOfSize 1000) (-1000) (by decide) (by decide) (by decide)).2.1
     (by decide),
   (C3_seek_end_amended (readerOfSize 1000) (-1001) (by decide) (by decide) (by decide)).2.2.1
     (by decide)⟩

/-! ## C4 -/

/-- On a size-unknown handle anchored at End the range is the `%d` rendering
of the cursor after `bytes=`, whatever the requested length. -/
theorem getBytesRange_unknown_end (s : S3File) (n : Int)
    (hS : s.fileSize < 1) (hw : s.whence = SeekEnd) :
    getBytesRange s n = rangeHeaderSuffix s.offset := by
  unfold getBytesRange
  rw [if_pos hS, if_neg (by rw [hw]; decide), if_pos hw]

/-- A seek on a size-unknown handle is stored unchecked. -/
theorem seek_unknown_size (s : S3File) (offset whence : Int) (hS : s.fileSize < 1)
    (hw1 : SeekStart ≤ whence) (hw2 : whence ≤ SeekEnd) :
    Seek s offset whence = seekStored s offset whence := by
  unfold Seek
  rw [if_neg (by omega), if_neg (by omega)]
  rfl

/-- C4 fails as stated: with cursor 0 (which satisfies `c ≤ 0`) on a
size-unknown handle anchored at End, the header is `bytes=0`, which is not the
suffix form `bytes=-0`. -/
theorem C4_suffix_range_cursor_zero :
    (Seek (readerOfSize 0) 0 SeekEnd).err = none ∧
    (Seek (readerOfSize 0) 0 SeekEnd).file.offset ≤ 0 ∧
    getBytesRange (Seek (readerOfSize 0) 0 SeekEnd).file 50 = "bytes=0" ∧
    getBytesRange (Seek (readerOfSize 0) 0 SeekEnd).file 50
      ≠ "bytes=-" ++ Nat.repr ((0 : Int).natAbs) := by
  decide

/-- C4, amended: on a size-unknown handle whose anchor is End and whose cursor
`c` is negative, the range header built by `getBytesRange` is the suffix form
`bytes=-|c|` for every requested length; and on a size-unknown read handle,
`Seek(c, SeekEnd)` followed by a `Read` into any buffer issues exactly that
header. -/
theorem C4_suffix_range_amended (s : S3File) (hS : s.fileSize < 1) :
    (s.whence = SeekEnd → s.offset < 0 →
      ∀ n : Int, getBytesRange s n = "bytes=-" ++ Nat.repr s.offset.natAbs) ∧
    (s.downloader = true → ∀ (c : Int) (p : List UInt8)
      (download : GetObjectInput → DownloadResponse), c < 0 →
      ∃ r, Read (Seek s c SeekEnd).file p download = some r ∧
        r.request = some { Bucket := s.BucketName, Key := s.Key,
                           Range := some ("bytes=-" ++ Nat.repr c.natAbs) }) := by
  have hfmt : ∀ c : Int, c < 0 → rangeHeaderSuffix c = "bytes=-" ++ Nat.repr c.natAbs := by
    intro c hc
    unfold rangeHeaderSuffix fmtD
    rw [if_pos hc, ← String.append_assoc]
    rfl
  refine ⟨?_, ?_⟩
  · intro hw hc n
    rw [getBytesRange_unknown_end s n hS hw, hfmt _ hc]
  · intro hd c p download hc
    rw [seek_unknown_size s c SeekEnd hS (by decide) (by decide)]
    have hr : getBytesRange (seekStored s c SeekEnd).file p.length
        = "bytes=-" ++ Nat.repr c.natAbs := by
      rw [getBytesRange_unknown_end (seekStored s c SeekEnd).file _ hS rfl]
      exact hfmt c hc
    have hpos : 0 < ("bytes=-" ++ Nat.repr c.natAbs).length := by
      rw [String.length_append]
      have h : "bytes=-".length = 7 := by decide
      omega
    have hne : ¬ ((seekStored s c SeekEnd).file.fileSize > 0 ∧
        (seekStored s c SeekEnd).file.offset ≥ (seekStored s c SeekEnd).file.fileSize) := by
      intro h
      have h1 : s.fileSize > 0 := h.1
      omega
    unfold Read getObjectInput
    rw [if_neg hne]
    have hd2 : (seekStored s c SeekEnd).file.downloader = true := hd
    simp only [hr, hpos, gt_iff_lt, if_true, hd2, Bool.true_eq_false, if_false]
    cases hresp : (download { Bucket := (seekStored s c SeekEnd).file.BucketName,
                              Key := (seekStored s c SeekEnd).file.Key,
                              Range := some ("bytes=-" ++ Nat.repr c.natAbs) }).err with
    | some e => exact ⟨_, rfl, rfl⟩
    | none =>
      simp only
      split
      · exact ⟨_, rfl, rfl⟩
      · exact ⟨_, rfl, rfl⟩

/-- C4 amended, at the scenario of the specification: on a size-unknown handle
`Seek(-100, SeekEnd)` followed by a `Read` into a 50-byte buffer issues exactly
`bytes=-100`. -/
theorem C4_suffix_range_amended_witness :
    (readerOfSize 0).fileSize < 1 ∧
    ∃ r, Read (Seek (readerOfSize 0) (-100) SeekEnd).file (List.replicate 50 0)
          (deliver (List.replicate 100 7)) = some r ∧
      r.request = some { Bucket := "bucket", Key := "key", Range := some "bytes=-100" } :=
  ⟨by decide,
   (C4_suffix_range_amended (readerOfSize 0) (by decide)).2 rfl (-100) (List.replicate 50 0)
     (deliver (List.replicate 100 7)) (by decide)⟩

/-! ## C5 -/

/-- A successful `Read` never reports more bytes than the buffer holds, and it
advances the cursor by the number of bytes the transport delivered. -/
theorem read_count_le_and_cursor (s : S3File) (p : List UInt8)
    (download : GetObjectInput → DownloadResponse) (r : ReadResult)
    (h : Read s p download = some r) (hok : r.err = none) :
    r.n ≤ p.length ∧ ∃ data : List UInt8,
      r.n = min (p.length : Int) data.length ∧
      r.file.offset = wrap64 (s.offset + data.length) := by
  unfold Read at h
  by_cases h1 : s.fileSize > 0 ∧ s.offset ≥ s.fileSize
  · rw [if_pos h1] at h
    cases h
    simp [errorsWrap] at hok
  · rw [if_neg h1] at h
    simp only at h
    generalize download (getObjectInput s p.length) = resp at h
    by_cases h2 : s.downloader = false
    · rw [if_pos h2] at h; cases h
    · rw [if_neg h2] at h
      have hlen : ((writeAtBuffer p resp.data).length : Int) > (p.length : Int)
          ↔ (p.length : Int) < resp.data.length := by
        unfold writeAtBuffer
        rw [List.length_append, List.length_drop]
        omega
      cases hresp : resp.err with
      | some e =>
        rw [hresp] at h
        cases h
        simp [errorsWrap] at hok
      | none =>
        rw [hresp] at h
        by_cases hgt : ((writeAtBuffer p resp.data).length : Int) > (p.length : Int)
        · simp only [if_pos hgt] at h
          cases h
          refine ⟨le_refl _, resp.data, ?_, rfl⟩
          exact (min_eq_left (le_of_lt (hlen.mp hgt))).symm
        · simp only [if_neg hgt] at h
          cases h
          have h3 : ¬ (p.length : Int) < resp.data.length := fun h4 => hgt (hlen.mpr h4)
          refine ⟨by show (resp.data.length : Int) ≤ p.length; omega, resp.data, ?_, rfl⟩
          show (resp.data.length : Int) = min (p.length : Int) resp.data.length
          exact (min_eq_right (by omega)).symm

set_option maxRecDepth 100000 in
/-- C5 fails on the code: on a size-unknown handle, after `Seek(-100, SeekEnd)`
a `Read` into a 50-byte buffer requests `bytes=-100`; when the 100 bytes
arrive the call returns 50 with nil error but moves the cursor from -100 to 0,
not to -100 + 50.  Likewise on an object of 1000 bytes with the cursor at 900:
when 100 bytes arrive for a 50-byte buffer the call returns 50 and moves the
cursor to 1000, not to 950. -/
theorem C5_cursor_advances_by_delivered :
    (Seek (readerOfSize 0) (-100) SeekEnd).file.offset = -100 ∧
    (Read (Seek (readerOfSize 0) (-100) SeekEnd).file (List.replicate 50 0)
        (deliver (List.replicate 100 7))).map ReadResult.summary
      = some (50, none,
              some { Bucket := "bucket", Key := "key", Range := some "bytes=-100" }, 0) ∧
    (0 : Int) ≠ -100 + 50 ∧
    (Seek (readerOfSize 1000) 900 SeekStart).file.offset = 900 ∧
    (Read (Seek (readerOfSize 1000) 900 SeekStart).file (List.replicate 50 0)
        (deliver (List.replicate 100 7))).map ReadResult.summary
      = some (50, none,
              some { Bucket := "bucket", Key := "key", Range := some "bytes=900-949" }, 1000) ∧
    (1000 : Int) ≠ 900 + 50 := by
  decide

/-! ## C6 -/

/-- C6: on a handle of known size `S ≥ 1` with cursor at or past `S`, `Read`
with any buffer returns 0 and an error that wraps `io.EOF`, issues no fetch,
and leaves the buffer and the handle (cursor and anchor included)
unchanged. -/
theorem C6_read_at_end (s : S3File) (p : List UInt8)
    (download : GetObjectInput → DownloadResponse)
    (hS : 1 ≤ s.fileSize) (hc : s.fileSize ≤ s.offset) :
    Read s p download
      = some { n := 0, err := some (Error.wrap Error.EOF "io.EOF"), request := none, p := p,
               file := s } ∧
    Error.cause (Error.wrap Error.EOF "io.EOF") = Error.EOF := by
  refine ⟨?_, rfl⟩
  unfold Read
  rw [if_pos ⟨by omega, hc⟩]
  rfl

/-- C6 on an object of 1000 bytes with the cursor at 1000. -/
theorem C6_read_at_end_witness :
    Read (Seek (readerOfSize 1000) 1000 SeekStart).file (List.replicate 150 0)
        (deliver (List.replicate 100 7))
      = some { n := 0, err := some (Error.wrap Error.EOF "io.EOF"), request := none,
               p := List.replicate 150 0,
               file := (Seek (readerOfSize 1000) 1000 SeekStart).file } :=
  (C6_read_at_end (Seek (readerOfSize 1000) 1000 SeekStart).file (List.replicate 150 0)
    (deliver (List.replicate 100 7)) (by decide) (by decide)).1

/-! ## C7 -/

set_option maxRecDepth 100000 in
/-- C7 fails on the code: on an object of 1000 bytes, after `Seek(-100, SeekEnd)`
and a `Read` that delivers the final 100 bytes, the cursor is 0 with anchor
End, so the next `Read` (50-byte buffer) does not report end-of-stream: it
issues a fetch for `bytes=1000-999` and returns what the transport answers,
here its error. -/
theorem C7_read_after_end_relative_read_fetches :
    (Seek (readerOfSize 1000) (-100) SeekEnd).err = none ∧
    (Read (Seek (readerOfSize 1000) (-100) SeekEnd).file (List.replicate 100 0)
        (deliver (List.replicate 100 7))).map ReadResult.summary
      = some (100, none,
              some { Bucket := "bucket", Key := "key", Range := some "bytes=900-999" }, 0) ∧
    ((Read (Seek (readerOfSize 1000) (-100) SeekEnd).file (List.replicate 100 0)
        (deliver (List.replicate 100 7))).bind
          (fun r => Read r.file (List.replicate 50 0) (refuse "InvalidRange"))).map
        ReadResult.summary
      = some (0, some (Error.wrap (Error.transport "InvalidRange") "s.downloader.Download"),
              some { Bucket := "bucket", Key := "key", Range := some "bytes=1000-999" }, 0) := by
  decide

/-! ## C8 -/

theorem seek_err (s : S3File) (offset whence : Int) : (Seek s offset whence).file.err = s.err := by
  unfold Seek
  split
  · rfl
  · simp only
    split <;> rfl

theorem read_err (s : S3File) (p : List UInt8) (download : GetObjectInput → DownloadResponse)
    (r : ReadResult) (h : Read s p download = some r) : r.file.err = s.err := by
  unfold Read at h
  by_cases h1 : s.fileSize > 0 ∧ s.offset ≥ s.fileSize
  · rw [if_pos h1] at h; cases h; rfl
  · rw [if_neg h1] at h
    simp only at h
    generalize download (getObjectInput s p.length) = resp at h
    by_cases h2 : s.downloader = false
    · rw [if_pos h2] at h; cases h
    · rw [if_neg h2] at h
      cases hresp : resp.err with
      | some e => rw [hresp] at h; cases h; rfl
      | none =>
        rw [hresp] at h
        simp only at h
        split at h <;> (cases h; rfl)

theorem close_err (s : S3File) (done : Option Error) : (Close s done).2.err = s.err := by
  unfold Close
  simp only
  split <;> rfl

theorem uploadFailed_err (s : S3File) (e : Error) :
    (uploadFailed s e).err = some (Error.wrap e "uploader.Upload") := by
  unfold uploadFailed
  simp only
  split <;> rfl

/-- A `Write` on a handle whose error field holds `e` returns at once. -/
theorem write_latched (s : S3File) (e : Error) (p : List UInt8) (ev : PipeEvent)
    (h : s.err = some e) :
    Write s p ev
      = some { n := 0, err := some (Error.wrap e "writeError"), closeWithError := none,
               file := if s.writeOpened then s else openWrite s } := by
  unfold Write
  cases hw : s.writeOpened with
  | true => simp only [if_true, h]; rfl
  | false =>
    have h2 : (openWrite s).err = some e := h
    simp only [Bool.false_eq_true, if_false, h2]; rfl

/-- A `Write` that returns an error returns 0 and leaves that error, or the
error it wraps, in the error field. -/
theorem write_failure_latches (s : S3File) (p : List UInt8) (ev : PipeEvent) (r : WriteResult)
    (h : Write s p ev = some r) (hf : r.err ≠ none) :
    r.n = 0 ∧ ∃ e, r.file.err = some e ∧
      (r.err = some e ∨ r.err = some (Error.wrap e "writeError")) := by
  unfold Write at h
  generalize (if s.writeOpened then s else openWrite s) = s0 at h
  simp only at h
  cases he : s0.err with
  | some e =>
    rw [he] at h
    simp only at h
    cases h
    exact ⟨rfl, e, he, Or.inr rfl⟩
  | none =>
    rw [he] at h
    simp only at h
    cases hq : s0.pipe with
    | none => rw [hq] at h; cases h
    | some q =>
      rw [hq] at h
      simp only at h
      rcases hpw : pipeWrite s0 q p ev with ⟨s1, q1, bw, we⟩
      rw [hpw] at h
      simp only at h
      cases we with
      | some e =>
        simp only at h
        cases h
        exact ⟨rfl, _, rfl, Or.inl rfl⟩
      | none =>
        simp only at h
        cases h
        exact absurd rfl hf

/-- A call of the caller keeps a latched error as it is. -/
theorem step_call_keeps_err (s t : S3File) (e : Error) (o : Op) (h : s.err = some e)
    (hc : o.isCall = true) (hs : step s o = some t) : t.err = some e := by
  cases o with
  | seek offset whence =>
    simp only [step, Option.some.injEq] at hs
    rw [← hs, seek_err]; exact h
  | read p download =>
    simp only [step, Option.map_eq_some'] at hs
    obtain ⟨r, hr, rfl⟩ := hs
    rw [read_err s p download r hr]; exact h
  | write p ev =>
    simp only [step, Option.map_eq_some'] at hs
    obtain ⟨r, hr, rfl⟩ := hs
    rw [write_latched s e p ev h] at hr
    cases hr
    show (if s.writeOpened then s else openWrite s).err = some e
    split
    · exact h
    · exact h
  | close done =>
    simp only [step, Option.some.injEq] at hs
    rw [← hs, close_err]; exact h
  | uploadFailure e2 => simp [Op.isCall] at hc

/-- No step, the failure of the upload included, empties the error field. -/
theorem step_keeps_err_set (s t : S3File) (o : Op) (h : s.err ≠ none)
    (hs : step s o = some t) : t.err ≠ none := by
  obtain ⟨e, he⟩ := Option.ne_none_iff_exists'.mp h
  cases hc : Op.isCall o with
  | true => rw [step_call_keeps_err s t e o he hc hs]; simp
  | false =>
    cases o with
    | uploadFailure e2 =>
      simp only [step, Option.some.injEq] at hs
      rw [← hs, uploadFailed_err]; simp
    | seek offset whence => simp [Op.isCall] at hc
    | read p download => simp [Op.isCall] at hc
    | write p ev => simp [Op.isCall] at hc
    | close done => simp [Op.isCall] at hc

theorem run_calls_keep_err (ops : List Op) :
    ∀ (s t : S3File) (e : Error), s.err = some e → (∀ o ∈ ops, Op.isCall o = true) →
      run s ops = some t → t.err = some e := by
  induction ops with
  | nil =>
    intro s t e h _ hr
    simp only [run, Option.some.injEq] at hr
    rw [← hr]; exact h
  | cons o os ih =>
    intro s t e h hc hr
    simp only [run] at hr
    cases hs : step s o with
    | none => rw [hs] at hr; cases hr
    | some u =>
      rw [hs] at hr
      exact ih u t e (step_call_keeps_err s u e o h (hc o (List.mem_cons_self o os)) hs)
        (fun o2 ho2 => hc o2 (List.mem_cons_of_mem o ho2)) hr

theorem run_keeps_err_set (ops : List Op) :
    ∀ (s t : S3File), s.err ≠ none → run s ops = some t → t.err ≠ none := by
  induction ops with
  | nil =>
    intro s t h hr
    simp only [run, Option.some.injEq] at hr
    rw [← hr]; exact h
  | cons o os ih =>
    intro s t h hr
    simp only [run] at hr
    cases hs : step s o with
    | none => rw [hs] at hr; cases hr
    | some u =>
      rw [hs] at hr
      exact ih u t (step_keeps_err_set s u o h hs) hr

/-- C8: on a handle whose latched error is `e`, every `Write`, for every slice
and whatever the pipe's reader does, returns 0 and `e` (annotated by
`errors.Wrap` with `writeError`), makes no call on the pipe and leaves a
write-opened handle exactly as it was; a `Write` that fails leaves its error
latched; no sequence of `Seek`, `Read`, `Write` and `Close` calls changes the
latched error, and no sequence of such calls and upload failures resets it to
nil. -/
theorem C8_write_poisoning (s : S3File) (e : Error) (h : s.err = some e) :
    (∀ (p : List UInt8) (ev : PipeEvent),
      Write s p ev
        = some { n := 0, err := some (Error.wrap e "writeError"), closeWithError := none,
                 file := if s.writeOpened then s else openWrite s } ∧
      Error.cause (Error.wrap e "writeError") = Error.cause e) ∧
    (∀ (s0 : S3File) (p : List UInt8) (ev : PipeEvent) (r : WriteResult),
      Write s0 p ev = some r → r.err ≠ none →
      r.n = 0 ∧ ∃ e0, r.file.err = some e0 ∧
        (r.err = some e0 ∨ r.err = some (Error.wrap e0 "writeError"))) ∧
    (∀ (ops : List Op) (t : S3File), (∀ o ∈ ops, Op.isCall o = true) →
      run s ops = some t → t.err = some e) ∧
    (∀ (ops : List Op) (t : S3File), run s ops = some t → t.err ≠ none) := by
  refine ⟨fun p ev => ⟨write_latched s e p ev h, rfl⟩, write_failure_latches, ?_, ?_⟩
  · intro ops t hc hr
    exact run_calls_keep_err ops s t e h hc hr
  · intro ops t hr
    exact run_keeps_err_set ops s t (by rw [h]; simp) hr

/-- C8 on a handle poisoned by a `Write` after `Close`: the next `Write`
returns 0 and the latched pipe error, and the handle stays as it is. -/
theorem C8_write_poisoning_witness :
    poisonedWriter.err = some (Error.wrap Error.ErrClosedPipe "s.pipeWriter.Write") ∧
    Write poisonedWriter [2, 3] PipeEvent.readAll
      = some { n := 0,
               err := some (Error.wrap (Error.wrap Error.ErrClosedPipe "s.pipeWriter.Write")
                        "writeError"),
               closeWithError := none, file := poisonedWriter } :=
  ⟨by decide,
   ((C8_write_poisoning poisonedWriter (Error.wrap Error.ErrClosedPipe "s.pipeWriter.Write")
      (by decide)).1 [2, 3] PipeEvent.readAll).1⟩

/-! ## C9 -/

/-- Whenever the forward of `Write` to the pipe fails, `CloseWithError` is
called with nil. -/
theorem write_forward_failure_closes_with_nil (s : S3File) (p : List UInt8) (ev : PipeEvent)
    (r : WriteResult) (hw : s.writeOpened = true) (hs : s.err = none)
    (h : Write s p ev = some r) (hf : r.err ≠ none) :
    r.closeWithError = some none := by
  unfold Write at h
  rw [hw] at h
  simp only [if_true, hs] at h
  cases hq : s.pipe with
  | none => rw [hq] at h; cases h
  | some q =>
    rw [hq] at h
    simp only at h
    rcases hpw : pipeWrite s q p ev with ⟨s1, q1, bw, we⟩
    rw [hpw] at h
    simp only at h
    cases we with
    | some e => simp only at h; cases h; rfl
    | none => simp only at h; cases h; exact absurd rfl hf

/-- C9 fails on the code: a `Write` on a handle whose pipe is already closed
(here by `Close`) has its forward fail with `io.ErrClosedPipe`; the handle
latches the wrapped error and returns 0 with it, but the argument of
`CloseWithError` is nil, not that error. -/
theorem C9_close_with_nil_error :
    closedWriter.err = none ∧
    Write closedWriter [1, 2, 3] PipeEvent.readAll
      = some { n := 0,
               err := some (Error.wrap Error.ErrClosedPipe "s.pipeWriter.Write"),
               closeWithError := some none,
               file := { closedWriter with
                 err := some (Error.wrap Error.ErrClosedPipe "s.pipeWriter.Write") } } ∧
    (some none : Option (Option Error))
      ≠ some (some (Error.wrap Error.ErrClosedPipe "s.pipeWriter.Write")) := by
  decide

/-! ## C10 -/

/-- A `Write` on a healthy write-opened handle whose pipe is open and whose
reader consumes the slice: all bytes are appended to the upload body. -/
theorem write_forwarded (s : S3File) (q : Pipe) (p : List UInt8)
    (hw : s.writeOpened = true) (he : s.err = none) (hq : s.pipe = some q)
    (hd : q.done = false) :
    Write s p PipeEvent.readAll
      = some { n := p.length, err := none, closeWithError := none,
               file := { s with pipe := some { q with body := q.body ++ p } } } := by
  unfold Write
  simp only [hw, if_true, he, hq, pipeWrite, hd, Bool.false_eq_true, if_false]

theorem writeAll_forwarded (bs : List (List UInt8)) :
    ∀ (s : S3File) (q : Pipe), s.writeOpened = true → s.err = none → s.pipe = some q →
      q.done = false →
      writeAll s bs
        = some ({ s with pipe := some { q with body := q.body ++ bs.flatten } },
                bs.map (fun b => ((b.length : Int), (none : Option Error)))) := by
  induction bs with
  | nil =>
    intro s q _ _ hq _
    simp only [writeAll, List.flatten_nil, List.append_nil, List.map_nil]
    rw [← hq]
  | cons b bs ih =>
    intro s q hw he hq hd
    simp only [writeAll]
    rw [write_forwarded s q b hw he hq hd]
    simp only
    rw [ih { s with pipe := some { q with body := q.body ++ b } } { q with body := q.body ++ b }
      hw he rfl hd]
    simp only [List.flatten_cons, List.append_assoc, List.map_cons]

/-- C10: on a handle obtained from `Create`, with a reader that consumes every
slice and no upload failure, the successive calls `Write(b1)`, ..., `Write(bn)`
return `len(bi)` and nil each; `Close` then returns nil, the writer end is
closed with a clean end-of-stream, and the bytes handed to the upload body are
exactly `b1 ++ ... ++ bn`; the handle has started one upload session, and
carries the parent's bucket and the given key. -/
theorem C10_write_round_trip (parent : S3File) (key : String) (bs : List (List UInt8)) :
    ∃ t : S3File,
      writeAll (Create parent key) bs
        = some (t, bs.map (fun b => ((b.length : Int), (none : Option Error)))) ∧
      (Close t none).1 = none ∧
      uploadBody (Close t none).2 = bs.flatten ∧
      (Close t none).2.pipe = some { werr := some Error.EOF, rerr := none, body := bs.flatten } ∧
      (Close t none).2.uploadsStarted = 1 ∧
      (Close t none).2.err = none ∧
      (Close t none).2.BucketName = parent.BucketName ∧ (Close t none).2.Key = key := by
  have h := writeAll_forwarded bs (Create parent key) Pipe.new rfl rfl rfl rfl
  refine ⟨_, h, ?_, ?_, ?_, ?_, ?_, ?_, ?_⟩ <;>
    simp [Close, uploadBody, Pipe.closeWrite, Pipe.new, Create, openWrite]

/-! ## C11 -/

theorem string_length_eq_zero (t : String) : t.length = 0 ↔ t = "" := by
  constructor
  · intro h
    cases t with
    | mk d =>
      have hd : d = [] := List.length_eq_zero.mp h
      subst hd
      rfl
  · intro h
    subst h
    rfl

/-- The key of the handle `Open` builds: the name, or the receiver's key when
the name is empty. -/
theorem openInstance_key (s : S3File) (name : String) :
    (openInstance s name).Key = if name = "" then s.Key else name := by
  unfold openInstance
  by_cases h : name = ""
  · rw [if_pos h]
    simp only [(string_length_eq_zero name).mpr h, if_true]
  · rw [if_neg h]
    have h2 : ¬ name.length = 0 := fun h3 => h ((string_length_eq_zero name).mp h3)
    simp only [h2, if_false]

/-- A `Read` that is not at the end of a known-size object, on a handle with a
downloader, hands the request of `getObjectInput` to the downloader, whatever
the transport answers. -/
theorem read_issues_request (s : S3File) (p : List UInt8)
    (download : GetObjectInput → DownloadResponse)
    (hne : ¬ (s.fileSize > 0 ∧ s.offset ≥ s.fileSize)) (hd : s.downloader = true) :
    ∃ r, Read s p download = some r ∧ r.request = some (getObjectInput s p.length) := by
  unfold Read
  rw [if_neg hne]
  simp only [hd, Bool.true_eq_false, if_false]
  generalize download (getObjectInput s p.length) = resp
  cases hresp : resp.err with
  | some e => exact ⟨_, rfl, rfl⟩
  | none =>
    simp only
    split
    · exact ⟨_, rfl, rfl⟩
    · exact ⟨_, rfl, rfl⟩

/-- C11: on an already-probed handle, whatever its cursor and anchor, `Open`
with an empty name or with the handle's own key makes no `HeadObject` call and
returns, with nil error, a new handle with the same bucket, key, size,
probe status and downloader, cursor 0 and anchor Start; the receiver is
unchanged.  The new handle is itself probed, so a further `Open` on it makes
no `HeadObject` call; `Read` has no `HeadObject` call at all, and the first
`Read` of the new handle on an object of known size `S` requests the range
`[0, min(n-1, S-1)]` computed from the copied size. -/
theorem C11_open_probed_sibling (s : S3File) (name : String)
    (head : HeadObjectInput → HeadResponse)
    (hp : s.readOpened = true) (hn : name = "" ∨ name = s.Key) :
    Open s name head
      = { pf := some { offset := 0, whence := SeekStart, writeOpened := false,
                       writeDone := false, pipe := none, readOpened := true,
                       fileSize := s.fileSize, downloader := s.downloader, err := none,
                       BucketName := s.BucketName, Key := s.Key, uploadsStarted := 0 },
          err := none, parent := s, headCalls := [] } ∧
    (∀ (name2 : String) (head2 : HeadObjectInput → HeadResponse),
      (Open (openInstance s name) name2 head2).headCalls = []) ∧
    (1 ≤ s.fileSize → s.fileSize < 2 ^ 63 → s.downloader = true →
      ∀ (p : List UInt8) (download : GetObjectInput → DownloadResponse),
        1 ≤ p.length → (p.length : Int) < 2 ^ 63 →
        ∃ r, Read (openInstance s name) p download = some r ∧
          r.request
            = some { Bucket := s.BucketName, Key := s.Key,
                     Range := some (rangeHeader 0
                       (min ((p.length : Int) - 1) (s.fileSize - 1))) }) := by
  have hkey : (openInstance s name).Key = s.Key := by
    rw [openInstance_key]
    rcases hn with h | h
    · rw [if_pos h]
    · by_cases h2 : name = ""
      · rw [if_pos h2]
      · rw [if_neg h2]; exact h
  have hinst : openInstance s name
      = { offset := 0, whence := SeekStart, writeOpened := false,
          writeDone := false, pipe := none, readOpened := true,
          fileSize := s.fileSize, downloader := s.downloader, err := none,
          BucketName := s.BucketName, Key := s.Key, uploadsStarted := 0 } := by
    have h1 : openInstance s name
        = { offset := 0, whence := SeekStart, writeOpened := false,
            writeDone := false, pipe := none, readOpened := s.readOpened,
            fileSize := s.fileSize, downloader := s.downloader, err := none,
            BucketName := s.BucketName, Key := (openInstance s name).Key,
            uploadsStarted := 0 } := rfl
    rw [hkey, hp] at h1
    exact h1
  refine ⟨?_, ?_, ?_⟩
  · unfold Open
    rw [if_neg (by rw [hp]; decide), hinst]
  · intro name2 head2
    rw [hinst]
    unfold Open
    rw [if_neg (fun h => Bool.noConfusion h)]
  · intro hS1 hS2 hd p download hn1 hn2
    rw [hinst]
    obtain ⟨r, hr, hreq⟩ := read_issues_request
      { offset := 0, whence := SeekStart, writeOpened := false,
        writeDone := false, pipe := none, readOpened := true,
        fileSize := s.fileSize, downloader := s.downloader, err := none,
        BucketName := s.BucketName, Key := s.Key, uploadsStarted := 0 } p download
      (by simp only [not_and, not_le]; intro _; omega) hd
    refine ⟨r, hr, ?_⟩
    rw [hreq]
    have hrange := getBytesRange_known_start
      { offset := 0, whence := SeekStart, writeOpened := false,
        writeDone := false, pipe := none, readOpened := true,
        fileSize := s.fileSize, downloader := s.downloader, err := none,
        BucketName := s.BucketName, Key := s.Key, uploadsStarted := 0 } p.length
      hS1 hS2 rfl (le_refl _) (by omega) (by simp only; omega)
    simp only [zero_add] at hrange
    unfold getObjectInput
    simp only [hrange, rangeHeader_length_pos, gt_iff_lt, if_true]

/-- C11 on a probed handle of an object of 1000 bytes that sits at cursor -100
with anchor End: `Open` with the empty name and with the key `key` both return
a handle at cursor 0 with anchor Start and size 1000, make no `HeadObject`
call (the probe offered here would fail) and leave the receiver as it was. -/
theorem C11_open_probed_sibling_witness :
    movedReader.offset = -100 ∧ movedReader.whence = SeekEnd ∧
    Open movedReader "" (headFails "AccessDenied")
      = { pf := some (readerOfSize 1000), err := none, parent := movedReader,
          headCalls := [] } ∧
    Open movedReader "key" (headFails "AccessDenied")
      = { pf := some (readerOfSize 1000), err := none, parent := movedReader,
          headCalls := [] } :=
  ⟨by decide, by decide,
   (C11_open_probed_sibling movedReader "" (headFails "AccessDenied") (by decide)
      (Or.inl rfl)).1,
   (C11_open_probed_sibling movedReader "key" (headFails "AccessDenied") (by decide)
      (Or.inr (by decide))).1⟩

/-! ## C12 -/

/-- C12 fails as stated: `Open` with a name different from the key returns a
handle whose key is that name, and `Create` with the empty name returns a
handle whose key is empty; neither is the parent's key. -/
theorem C12_name_becomes_key :
    (readerOfSize 1000).Key = "key" ∧
    (Open (readerOfSize 1000) "other" (headReports 1000)).pf.map
        (fun f => (f.BucketName, f.Key)) = some ("bucket", "other") ∧
    (Create (readerOfSize 1000) "other").Key = "other" ∧
    (Create (readerOfSize 1000) "").Key = "" ∧
    "other" ≠ (readerOfSize 1000).Key ∧ "" ≠ (readerOfSize 1000).Key := by
  decide

/-- C12, amended: the bucket is fixed at construction: every handle returned by
`Open(name)` and the handle returned by `Create(name)` carry the parent's
bucket.  The key of the returned handle is the parent's key when the name
equals it and, for `Open`, when the name is empty; for every non-empty name it
is the name itself. -/
theorem C12_identity_amended (s : S3File) (name : String)
    (head : HeadObjectInput → HeadResponse) :
    (∀ pf : S3File, (Open s name head).pf = some pf →
      pf.BucketName = s.BucketName ∧
      (name = "" → pf.Key = s.Key) ∧
      (name = s.Key → pf.Key = s.Key) ∧
      (name ≠ "" → pf.Key = name)) ∧
    (Create s name).BucketName = s.BucketName ∧
    (name = s.Key → (Create s name).Key = s.Key) ∧
    (name ≠ "" → (Create s name).Key = name) := by
  have hpf : ∀ pf : S3File, (Open s name head).pf = some pf →
      pf.BucketName = s.BucketName ∧ pf.Key = if name = "" then s.Key else name := by
    intro pf h
    unfold Open at h
    by_cases hr : s.readOpened = false
    · rw [if_pos hr] at h
      unfold openRead at h
      simp only at h
      cases hh : head { Bucket := s.BucketName, Key := s.Key } with
      | fail e =>
        rw [hh] at h
        simp [errorsWrap] at h
      | ok len =>
        rw [hh] at h
        simp only [Option.some.injEq] at h
        rw [← h]
        exact ⟨rfl, openInstance_key _ name⟩
    · rw [if_neg hr] at h
      simp only [Option.some.injEq] at h
      rw [← h]
      exact ⟨rfl, openInstance_key s name⟩
  refine ⟨?_, rfl, ?_, ?_⟩
  · intro pf h
    obtain ⟨hb, hk⟩ := hpf pf h
    refine ⟨hb, ?_, ?_, ?_⟩
    · intro h1; rw [hk, if_pos h1]
    · intro h1
      rw [hk]
      by_cases h2 : name = ""
      · rw [if_pos h2]
      · rw [if_neg h2]; exact h1
    · intro h1; rw [hk, if_neg h1]
  · intro h1
    show name = s.Key
    exact h1
  · intro _
    rfl

/-- C12 amended, on a handle with key `key`: `Open("")` and `Open("key")`
return a handle with key `key`, `Open("other")` and `Create("other")` one with
key `other`, all with the bucket `bucket`. -/
theorem C12_identity_amended_witness :
    (Open (readerOfSize 1000) "" (headReports 1000)).pf.map
        (fun f => (f.BucketName, f.Key)) = some ("bucket", "key") ∧
    (∀ pf : S3File, (Open (readerOfSize 1000) "other" (headReports 1000)).pf = some pf →
      pf.Key = "other") ∧
    (Create (readerOfSize 1000) "other").BucketName = "bucket" ∧
    (Create (readerOfSize 1000) "other").Key = "other" :=
  ⟨by decide,
   fun pf h => ((C12_identity_amended (readerOfSize 1000) "other" (headReports 1000)).1
      pf h).2.2.2 (by decide),
   (C12_identity_amended (readerOfSize 1000) "other" (headReports 1000)).2.1,
   (C12_identity_amended (readerOfSize 1000) "other" (headReports 1000)).2.2.2 (by decide)⟩

/-! ## C13 -/

/-- On an unprobed handle whose `HeadObject` call fails with `e`, `Open`
returns no handle and the error of the probe, annotated twice; the receiver
stays unprobed. -/
theorem open_probe_failure (s : S3File) (name : String)
    (head : HeadObjectInput → HeadResponse) (e : Error)
    (hu : s.readOpened = false)
    (hf : head { Bucket := s.BucketName, Key := s.Key } = HeadResponse.fail e) :
    Open s name head
      = { pf := none,
          err := some (Error.wrap (Error.wrap e "s.client.HeadObject") "s.openRead"),
          parent := s, headCalls := [{ Bucket := s.BucketName, Key := s.Key }] } := by
  unfold Open
  rw [if_pos hu]
  unfold openRead
  simp only [hf]
  rfl

/-- C13 fails on the code: on an unprobed read handle whose `HeadObject` call
fails, `Open` returns a nil handle together with the wrapped probe error, and
so does `NewS3FileReaderWithClient`; no read handle of unknown size results. -/
theorem C13_open_fails_when_probe_fails :
    unprobedReader.readOpened = false ∧
    Open unprobedReader "key" (headFails "AccessDenied")
      = { pf := none,
          err := some (Error.wrap (Error.wrap (Error.transport "AccessDenied")
                   "s.client.HeadObject") "s.openRead"),
          parent := unprobedReader, headCalls := [{ Bucket := "bucket", Key := "key" }] } ∧
    NewS3FileReaderWithClient "bucket" "key" (headFails "AccessDenied")
      = (none, some (Error.wrap (Error.wrap (Error.wrap (Error.transport "AccessDenied")
                   "s.client.HeadObject") "s.openRead") "file.Open")) := by
  decide

end S3v2
